import Mathlib

/-!
Verification of the expense-allocation core of `cal_tax.py`
(`compute_allocation`): weight derivation from a household profile,
largest-remainder percentage apportionment, and largest-remainder
amount apportionment.

Shallow-embedding conventions:
* Python floats are modelled as exact rationals (`ℚ`).
* Python's `int(x)` (truncation toward zero) is `pyInt`.
* Python 3's `round(x)` (round half to even) is `pyRound`.
* `str.strip()` / `str.lower()` are `pyStrip` / `pyLower`, working on the
  underlying character list (ASCII case folding via `Char.toLower`; every
  string the program compares against is ASCII).
* Python dicts keyed by the eight fixed category-name strings, iterated in
  insertion order, are association lists `List (String × _)` in declaration
  order; the keys are pairwise distinct so an in-place `dict[k] += 1` is a
  `map` that bumps the matching key.
* The in-place, stable `list.sort(reverse=True)` on `(remainder, key)`
  tuples is the stable insertion sort `sortBy` with the corresponding
  descending lexicographic comparison `tupleDesc`.  Python breaks remainder
  ties by comparing the key strings (descending, code-point order); on the
  eight fixed keys that string order is precomputed in `stringRank`.
* `remainders[i]` for `i < missing` (resp. `remaining_bdt`) is modelled by
  `List.take`; theorems `C9_deficit_bounds` / `C10_remaining_bounds` show
  the index stays within the eight-element list, where Python would raise.
-/

namespace CalTax

/-- Python `int(x)` on a real value: truncation toward zero. -/
def pyInt (q : ℚ) : ℤ := if q < 0 then ⌈q⌉ else ⌊q⌋

/-- Python 3 `round(x)` (no digits): round half to even. -/
def pyRound (q : ℚ) : ℤ :=
  if q - ⌊q⌋ < 1/2 then ⌊q⌋
  else if 1/2 < q - ⌊q⌋ then ⌊q⌋ + 1
  else if ⌊q⌋ % 2 = 0 then ⌊q⌋ else ⌊q⌋ + 1

/-- Python `str.lower()` restricted to ASCII case folding. -/
def pyLower (s : String) : String := ⟨s.data.map Char.toLower⟩

/-- Python `str.strip()`: drop whitespace from both ends. -/
def pyStrip (s : String) : String :=
  ⟨((s.data.dropWhile Char.isWhitespace).reverse.dropWhile Char.isWhitespace).reverse⟩

/-- Stable insertion of `a` into `l`: `a` goes in front of the first element
`b` with `r a b` (so an element equivalent to `a` that was already in the
list stays in front of it only when `r` already puts it first). -/
def insertBy (r : α → α → Prop) [DecidableRel r] (a : α) : List α → List α
  | [] => [a]
  | b :: t => if r a b then a :: b :: t else b :: insertBy r a t

/-- Stable insertion sort; models Python's stable `list.sort` with the
"comes before or ties" comparison `r`. -/
def sortBy (r : α → α → Prop) [DecidableRel r] : List α → List α
  | [] => []
  | a :: t => insertBy r a (sortBy r t)

/-- Household profile: the seven arguments of `compute_allocation`. -/
structure Profile where
  total_expense : ℚ
  location : String
  family_size : ℤ
  has_kids : Bool
  own_home : Bool
  home_support_staff : Bool
  mode : String

/-- The eight category weights, one field per key of the `weights` dict,
in declaration order. -/
structure Weights where
  food : ℚ
  accommodation : ℚ
  electricity : ℚ
  gas : ℚ
  telecom : ℚ
  homeSupport : ℚ
  education : ℚ
  festival : ℚ

/-- The eight dict keys, in declaration (= iteration) order. -/
def categoryNames : List String :=
  ["Food, Clothing and Other Essentials",
   "Accommodation Expense",
   "Electricity",
   "Gas, Water, Sewer and Garbage",
   "Phone, Internet, TV channels & Subscriptions",
   "Home-Support Staff and Other Expenses",
   "Education Expenses (for kids)",
   "Festival, Party, Events"]

/-- The name of the kids'-education category. -/
def eduName : String := "Education Expenses (for kids)"

/-- Values of the dict, in declaration order. -/
def Weights.values (w : Weights) : List ℚ :=
  [w.food, w.accommodation, w.electricity, w.gas,
   w.telecom, w.homeSupport, w.education, w.festival]

/-- The base weight constants of the `weights` dict literal. -/
def baseWeights : Weights := ⟨30, 28, 5/2, 3, 7/2, 7, 10, 6⟩

/-- `if not has_kids: weights["Education ..."] = 0.0`. -/
def kidsAdjust (p : Profile) (w : Weights) : Weights :=
  if p.has_kids then w else { w with education := 0 }

/-- The metro synonym set of the location test. -/
def metroLocs : List String := ["dhaka", "dhaka_city", "city", "big_city", "metro"]

/-- Location adjustment: `loc = location.strip().lower()`; metro multiplies
accommodation ×1.20, food ×1.05, telecom ×1.05, home-support ×1.10,
otherwise accommodation ×0.90. -/
def locAdjust (p : Profile) (w : Weights) : Weights :=
  if metroLocs.contains (pyLower (pyStrip p.location)) then
    { w with accommodation := w.accommodation * (120/100),
             food := w.food * (105/100),
             telecom := w.telecom * (105/100),
             homeSupport := w.homeSupport * (110/100) }
  else
    { w with accommodation := w.accommodation * (90/100) }

/-- Family-size adjustment: `extra_people = max(0, int(family_size) - 2)`;
if positive, food ×(1 + 0.05·extra) and, when `has_kids`, education
×(1 + 0.04·extra). -/
def famAdjust (p : Profile) (w : Weights) : Weights :=
  if 0 < max 0 (p.family_size - 2) then
    let w1 := { w with food := w.food * (1 + 5/100 * ((max 0 (p.family_size - 2) : ℤ) : ℚ)) }
    if p.has_kids then
      { w1 with education := w1.education * (1 + 4/100 * ((max 0 (p.family_size - 2) : ℤ) : ℚ)) }
    else w1
  else w

/-- Own-home adjustment: accommodation ×0.60, home-support ×1.05. -/
def homeAdjust (p : Profile) (w : Weights) : Weights :=
  if p.own_home then
    { w with accommodation := w.accommodation * (60/100),
             homeSupport := w.homeSupport * (105/100) }
  else w

/-- No-staff adjustment: home-support ×0.4 when there is no staff. -/
def staffAdjust (p : Profile) (w : Weights) : Weights :=
  if p.home_support_staff then w
  else { w with homeSupport := w.homeSupport * (40/100) }

/-- Mode adjustment: conservative → festival ×0.6, home-support ×0.7,
food ×1.08; comfortable → festival ×1.3, home-support ×1.2, food ×1.05;
anything else → unchanged. -/
def modeAdjust (p : Profile) (w : Weights) : Weights :=
  if p.mode = "conservative" then
    { w with festival := w.festival * (60/100),
             homeSupport := w.homeSupport * (70/100),
             food := w.food * (108/100) }
  else if p.mode = "comfortable" then
    { w with festival := w.festival * (130/100),
             homeSupport := w.homeSupport * (120/100),
             food := w.food * (105/100) }
  else w

/-- The full weight-derivation chain of `compute_allocation`, in source
order. -/
def computeWeights (p : Profile) : Weights :=
  modeAdjust p (staffAdjust p (homeAdjust p (famAdjust p (locAdjust p (kidsAdjust p baseWeights)))))

/-- `total_weight = sum([w for w in weights.values() if w > 0])`. -/
def totalWeight (w : Weights) : ℚ :=
  (w.values.filter (fun x => decide (0 < x))).sum

/-- The raw percentage of one weight:
`(w / total_weight) * 100.0 if w > 0 else 0.0`. -/
def rawVals (w : Weights) : List ℚ :=
  w.values.map (fun x => if 0 < x then x / totalWeight w * 100 else 0)

/-- `raw_percentages`: keys paired with raw percentages, declaration
order. -/
def rawPercentages (w : Weights) : List (String × ℚ) :=
  (categoryNames.zip w.values).map
    (fun kv => (kv.1, if 0 < kv.2 then kv.2 / totalWeight w * 100 else 0))

/-- Position of each category name in DESCENDING Python string order
(code-point comparison), used to model the tuple tie-break of
`remainders.sort(reverse=True)`.  On the eight fixed keys the descending
string order is
`"Phone, Internet, TV channels & Subscriptions"` >
`"Home-Support Staff and Other Expenses"` >
`"Gas, Water, Sewer and Garbage"` >
`"Food, Clothing and Other Essentials"` >
`"Festival, Party, Events"` >
`"Electricity"` >
`"Education Expenses (for kids)"` >
`"Accommodation Expense"`
(first bytes `P > H > G > F = F > E = E > A`, with `"Fo" > "Fe"` and
`"El" > "Ed"`). -/
def stringRank (s : String) : ℕ :=
  if s = "Phone, Internet, TV channels & Subscriptions" then 0
  else if s = "Home-Support Staff and Other Expenses" then 1
  else if s = "Gas, Water, Sewer and Garbage" then 2
  else if s = "Food, Clothing and Other Essentials" then 3
  else if s = "Festival, Party, Events" then 4
  else if s = "Electricity" then 5
  else if s = "Education Expenses (for kids)" then 6
  else 7

/-- Descending Python tuple order on `(remainder, key)` pairs, as used by
`remainders.sort(reverse=True)`: `a` comes before (or ties) `b` iff the
remainder of `a` is larger, or the remainders are equal and the key of `a`
is the (weakly) larger string, i.e. has the smaller `stringRank`. -/
def tupleDesc (a b : ℚ × String) : Prop :=
  b.1 < a.1 ∨ (a.1 = b.1 ∧ stringRank a.2 ≤ stringRank b.2)

instance : DecidableRel tupleDesc := fun a b => by
  unfold tupleDesc; infer_instance

/-- Modelled from the spec: the ranking the spec prescribes for both
apportionment passes — descending fractional remainder with ties broken by
original declaration order, i.e. a stable descending sort that compares
remainders only. -/
def specDesc (a b : ℚ × String) : Prop := b.1 ≤ a.1

instance : DecidableRel specDesc := fun a b => by
  unfold specDesc; infer_instance

/-- Keys of the first `n` entries of the sorted remainder list: the
categories drawn by `for i in range(n): _, key = sorted_rems[i]`.
`List.take` models the `range(n)` indexing (in bounds whenever `n ≤ 8`,
see `C9_deficit_bounds` and `C10_remaining_bounds`). -/
def winnersOf (r : (ℚ × String) → (ℚ × String) → Prop) [DecidableRel r]
    (rems : List (ℚ × String)) (n : ℤ) : List String :=
  ((sortBy r rems).take n.toNat).map Prod.snd

/-- Award `+1` to the keys drawn from the sorted remainder list.  The base
values are keyed by the pairwise-distinct category names, so incrementing
`dict[key] += 1` once per drawn entry is a map over the association
list. -/
def awardTop (r : (ℚ × String) → (ℚ × String) → Prop) [DecidableRel r]
    (base : List (String × ℤ)) (rems : List (ℚ × String)) (n : ℤ) :
    List (String × ℤ) :=
  if 0 < n then
    base.map (fun kv =>
      (kv.1, if (winnersOf r rems n).contains kv.1 then kv.2 + 1 else kv.2))
  else base

/-- `int_percentages` before the deficit distribution: floored raw
percentages. -/
def pctBase (p : Profile) : List (String × ℤ) :=
  (rawPercentages (computeWeights p)).map (fun kp => (kp.1, pyInt kp.2))

/-- The `remainders` list `(p - int(p), k)`, declaration order. -/
def pctRemainders (p : Profile) : List (ℚ × String) :=
  (rawPercentages (computeWeights p)).map
    (fun kp => (kp.2 - (pyInt kp.2 : ℚ), kp.1))

/-- `missing = 100 - current_total`. -/
def pctDeficit (p : Profile) : ℤ :=
  100 - ((pctBase p).map Prod.snd).sum

/-- The final integer percentages returned by `compute_allocation`. -/
def intPercentages (p : Profile) : List (String × ℤ) :=
  awardTop tupleDesc (pctBase p) (pctRemainders p) (pctDeficit p)

/-- `amt_raw = total_expense * int_percentages[k] / 100`, keyed. -/
def rawAmounts (p : Profile) : List (String × ℚ) :=
  (intPercentages p).map
    (fun kv => (kv.1, p.total_expense * (kv.2 : ℚ) / 100))

/-- `int_amounts` before the drift fix: truncated raw amounts. -/
def amtBase (p : Profile) : List (String × ℤ) :=
  (rawAmounts p).map (fun kp => (kp.1, pyInt kp.2))

/-- The `remainder_amounts` list `(amt_raw - amt_int, k)`. -/
def amtRemainders (p : Profile) : List (ℚ × String) :=
  (rawAmounts p).map (fun kp => (kp.2 - (pyInt kp.2 : ℚ), kp.1))

/-- `total_allocated`: sum of the truncated amounts. -/
def totalAllocated (p : Profile) : ℤ :=
  ((amtBase p).map Prod.snd).sum

/-- `remaining_bdt = int(round(total_expense - total_allocated))`. -/
def remainingBdt (p : Profile) : ℤ :=
  pyRound (p.total_expense - (totalAllocated p : ℚ))

/-- The final integer amounts returned by `compute_allocation`. -/
def intAmounts (p : Profile) : List (String × ℤ) :=
  awardTop tupleDesc (amtBase p) (amtRemainders p) (remainingBdt p)

/-- The full `compute_allocation`: the pair
`(int_percentages, int_amounts)`. -/
def compute_allocation (p : Profile) : List (String × ℤ) × List (String × ℤ) :=
  (intPercentages p, intAmounts p)

/-- Modelled from the spec: the percentage pass with the spec's
declaration-order tie-break (`specDesc`) instead of the code's string
tie-break. -/
def specIntPercentages (p : Profile) : List (String × ℤ) :=
  awardTop specDesc (pctBase p) (pctRemainders p) (pctDeficit p)

/-- Weight-derivation invariant: the food weight never drops below its base
30 (its multipliers are all ≥ 1) and every weight is non-negative. -/
def WeightsOK (w : Weights) : Prop :=
  30 ≤ w.food ∧ 0 ≤ w.accommodation ∧ 0 ≤ w.electricity ∧ 0 ≤ w.gas ∧
  0 ≤ w.telecom ∧ 0 ≤ w.homeSupport ∧ 0 ≤ w.education ∧ 0 ≤ w.festival

/-- Concrete profile used as counterexample input for the C2 drift claim:
`compute_allocation(2.5, 'other_area', 3, False, False, False, 'balanced')`. -/
def ceProfileHalf : Profile := ⟨5/2, "other_area", 3, false, false, false, "balanced"⟩

/-- Concrete profile used as counterexample input for the C3 tie-break
claim:
`compute_allocation(1, 'other_area', 5, False, False, False, 'balanced')`. -/
def ceProfileTie : Profile := ⟨1, "other_area", 5, false, false, false, "balanced"⟩

/-- Concrete profile used by several witnesses (spec Scenario A). -/
def witProfile : Profile := ⟨600000, "other_area", 3, true, false, false, "balanced"⟩

/-- Concrete no-kids profile used by the education witness. -/
def witProfileNK : Profile := ⟨600000, "other_area", 3, false, false, false, "balanced"⟩

/-- Concrete unknown-mode profile used by the mode-fallback witness. -/
def witProfileUM : Profile := ⟨600000, "other_area", 3, true, false, false, "unknown_value"⟩

end CalTax

namespace CalTax

/-! ### Generic facts about the Python primitives -/

theorem pyInt_of_nonneg {q : ℚ} (h : 0 ≤ q) : pyInt q = ⌊q⌋ := by
  unfold pyInt; rw [if_neg (not_lt.mpr h)]

theorem pyInt_nonneg {q : ℚ} (h : 0 ≤ q) : 0 ≤ pyInt q := by
  rw [pyInt_of_nonneg h]; exact Int.floor_nonneg.mpr h

theorem pyInt_le {q : ℚ} (h : 0 ≤ q) : (pyInt q : ℚ) ≤ q := by
  rw [pyInt_of_nonneg h]; exact Int.floor_le q

theorem pyInt_frac_nonneg {q : ℚ} (h : 0 ≤ q) : 0 ≤ q - (pyInt q : ℚ) :=
  sub_nonneg.mpr (pyInt_le h)

theorem pyInt_frac_lt_one {q : ℚ} (h : 0 ≤ q) : q - (pyInt q : ℚ) < 1 := by
  rw [pyInt_of_nonneg h, sub_lt_iff_lt_add, add_comm]
  exact Int.lt_floor_add_one q

theorem pyInt_zero : pyInt 0 = 0 := by
  rw [pyInt_of_nonneg le_rfl]; exact Int.floor_zero

theorem pyRound_le (q : ℚ) : (pyRound q : ℚ) ≤ q + 1/2 := by
  have h1 := Int.floor_le q
  have h2 := Int.lt_floor_add_one q
  unfold pyRound
  split_ifs <;> push_cast <;> linarith

theorem le_pyRound (q : ℚ) : q - 1/2 ≤ (pyRound q : ℚ) := by
  have h1 := Int.floor_le q
  have h2 := Int.lt_floor_add_one q
  unfold pyRound
  split_ifs <;> push_cast <;> linarith

theorem pyRound_zero : pyRound 0 = 0 := by
  unfold pyRound; norm_num

/-! ### The stable insertion sort -/

theorem insertBy_perm (r : α → α → Prop) [DecidableRel r] (a : α) :
    ∀ l : List α, List.Perm (insertBy r a l) (a :: l)
  | [] => List.Perm.refl _
  | b :: t => by
      unfold insertBy
      split
      · exact List.Perm.refl _
      · exact ((insertBy_perm r a t).cons b).trans (List.Perm.swap a b t)

theorem sortBy_perm (r : α → α → Prop) [DecidableRel r] :
    ∀ l : List α, List.Perm (sortBy r l) l
  | [] => List.Perm.refl _
  | a :: t => by
      unfold sortBy
      exact (insertBy_perm r a (sortBy r t)).trans ((sortBy_perm r t).cons a)

theorem mem_insertBy (r : α → α → Prop) [DecidableRel r] (a : α) (l : List α)
    {x : α} (hx : x ∈ insertBy r a l) : x = a ∨ x ∈ l :=
  (List.mem_cons).mp ((insertBy_perm r a l).mem_iff.mp hx)

theorem insertBy_pairwise (r : α → α → Prop) [DecidableRel r]
    (htot : ∀ x y, r x y ∨ r y x) (htr : ∀ x y z, r x y → r y z → r x z)
    (a : α) : ∀ l : List α, l.Pairwise r → (insertBy r a l).Pairwise r
  | [], _ => List.pairwise_singleton r a
  | b :: t, h => by
      rw [List.pairwise_cons] at h
      unfold insertBy
      split
      · rename_i hab
        rw [List.pairwise_cons]
        refine ⟨fun x hx => ?_, List.pairwise_cons.mpr h⟩
        rcases List.mem_cons.mp hx with rfl | hxt
        · exact hab
        · exact htr a b x hab (h.1 x hxt)
      · rename_i hab
        have hba : r b a := (htot a b).resolve_left hab
        rw [List.pairwise_cons]
        refine ⟨fun x hx => ?_, insertBy_pairwise r htot htr a t h.2⟩
        rcases mem_insertBy r a t hx with rfl | hxt
        · exact hba
        · exact h.1 x hxt

theorem sortBy_pairwise (r : α → α → Prop) [DecidableRel r]
    (htot : ∀ x y, r x y ∨ r y x) (htr : ∀ x y z, r x y → r y z → r x z) :
    ∀ l : List α, (sortBy r l).Pairwise r
  | [] => List.Pairwise.nil
  | a :: t => by
      unfold sortBy
      exact insertBy_pairwise r htot htr a _ (sortBy_pairwise r htot htr t)

theorem pairwise_take_drop {r : α → α → Prop} {l : List α}
    (h : l.Pairwise r) (n : ℕ) :
    ∀ a ∈ l.take n, ∀ b ∈ l.drop n, r a b := by
  have := List.take_append_drop n l
  rw [← this, List.pairwise_append] at h
  exact h.2.2

end CalTax

namespace CalTax

/-! ### The weight-derivation invariant -/

theorem weightsOK_base : WeightsOK baseWeights := by
  unfold WeightsOK baseWeights; norm_num

theorem weightsOK_kids (p : Profile) (w : Weights) (h : WeightsOK w) :
    WeightsOK (kidsAdjust p w) := by
  obtain ⟨h1, h2, h3, h4, h5, h6, h7, h8⟩ := h
  unfold kidsAdjust
  split
  · exact ⟨h1, h2, h3, h4, h5, h6, h7, h8⟩
  · exact ⟨h1, h2, h3, h4, h5, h6, le_rfl, h8⟩

theorem weightsOK_loc (p : Profile) (w : Weights) (h : WeightsOK w) :
    WeightsOK (locAdjust p w) := by
  obtain ⟨h1, h2, h3, h4, h5, h6, h7, h8⟩ := h
  unfold locAdjust
  split
  · exact ⟨by linarith, by linarith, h3, h4, by linarith, by linarith, h7, h8⟩
  · exact ⟨h1, by linarith, h3, h4, h5, h6, h7, h8⟩

theorem weightsOK_fam (p : Profile) (w : Weights) (h : WeightsOK w) :
    WeightsOK (famAdjust p w) := by
  obtain ⟨h1, h2, h3, h4, h5, h6, h7, h8⟩ := h
  have he : (0 : ℚ) ≤ ((max 0 (p.family_size - 2) : ℤ) : ℚ) := by
    push_cast; exact le_max_left 0 _
  have hfood : (30 : ℚ) ≤ w.food * (1 + 5/100 * ((max 0 (p.family_size - 2) : ℤ) : ℚ)) := by
    nlinarith
  have hedu : (0 : ℚ) ≤ w.education * (1 + 4/100 * ((max 0 (p.family_size - 2) : ℤ) : ℚ)) := by
    nlinarith
  unfold famAdjust
  split
  · split
    · exact ⟨hfood, h2, h3, h4, h5, h6, hedu, h8⟩
    · exact ⟨hfood, h2, h3, h4, h5, h6, h7, h8⟩
  · exact ⟨h1, h2, h3, h4, h5, h6, h7, h8⟩

theorem weightsOK_home (p : Profile) (w : Weights) (h : WeightsOK w) :
    WeightsOK (homeAdjust p w) := by
  obtain ⟨h1, h2, h3, h4, h5, h6, h7, h8⟩ := h
  unfold homeAdjust
  split
  · exact ⟨h1, by linarith, h3, h4, h5, by linarith, h7, h8⟩
  · exact ⟨h1, h2, h3, h4, h5, h6, h7, h8⟩

theorem weightsOK_staff (p : Profile) (w : Weights) (h : WeightsOK w) :
    WeightsOK (staffAdjust p w) := by
  obtain ⟨h1, h2, h3, h4, h5, h6, h7, h8⟩ := h
  unfold staffAdjust
  split
  · exact ⟨h1, h2, h3, h4, h5, h6, h7, h8⟩
  · exact ⟨h1, h2, h3, h4, h5, by linarith, h7, h8⟩

theorem weightsOK_mode (p : Profile) (w : Weights) (h : WeightsOK w) :
    WeightsOK (modeAdjust p w) := by
  obtain ⟨h1, h2, h3, h4, h5, h6, h7, h8⟩ := h
  unfold modeAdjust
  split
  · exact ⟨by linarith, h2, h3, h4, h5, by linarith, h7, by linarith⟩
  · split
    · exact ⟨by linarith, h2, h3, h4, h5, by linarith, h7, by linarith⟩
    · exact ⟨h1, h2, h3, h4, h5, h6, h7, h8⟩

theorem computeWeights_ok (p : Profile) : WeightsOK (computeWeights p) :=
  weightsOK_mode p _ (weightsOK_staff p _ (weightsOK_home p _
    (weightsOK_fam p _ (weightsOK_loc p _ (weightsOK_kids p _ weightsOK_base)))))

/-- The guard condition of the spec's DegenerateWeights error is
unsatisfiable: the positive-weight total is at least the food base
weight 30 for every input profile. -/
theorem totalWeight_ge (w : Weights) (h : WeightsOK w) : 30 ≤ totalWeight w := by
  have hfood : w.food ∈ w.values.filter (fun x => decide (0 < x)) := by
    refine List.mem_filter.mpr ⟨?_, ?_⟩
    · simp [Weights.values]
    · simpa using by linarith [h.1]
  have hpos : ∀ x ∈ w.values.filter (fun x => decide (0 < x)), (0:ℚ) ≤ x := by
    intro x hx
    have hx2 := (List.mem_filter.mp hx).2
    simp at hx2
    linarith
  exact le_trans h.1 (List.single_le_sum hpos _ hfood)

theorem totalWeight_pos (w : Weights) (h : WeightsOK w) : 0 < totalWeight w :=
  lt_of_lt_of_le (by norm_num) (totalWeight_ge w h)

end CalTax

namespace CalTax

/-! ### Structure of the raw-percentage stage -/

theorem rawPercentages_snd (w : Weights) :
    (rawPercentages w).map Prod.snd = rawVals w := rfl

theorem rawPercentages_fst (w : Weights) :
    (rawPercentages w).map Prod.fst = categoryNames := rfl

theorem pctBase_snd (p : Profile) :
    (pctBase p).map Prod.snd = (rawVals (computeWeights p)).map pyInt := rfl

theorem pctBase_fst (p : Profile) :
    (pctBase p).map Prod.fst = categoryNames := rfl

theorem pctRemainders_fst (p : Profile) :
    (pctRemainders p).map Prod.fst
      = (rawVals (computeWeights p)).map (fun q => q - (pyInt q : ℚ)) := rfl

theorem pctRemainders_snd (p : Profile) :
    (pctRemainders p).map Prod.snd = categoryNames := rfl

theorem rawVals_length (w : Weights) : (rawVals w).length = 8 := rfl

theorem categoryNames_nodup : categoryNames.Nodup := by
  unfold categoryNames; decide

theorem rawVals_nonneg (w : Weights) (hOK : WeightsOK w) :
    ∀ q ∈ rawVals w, 0 ≤ q := by
  intro q hq
  unfold rawVals at hq
  obtain ⟨x, _, rfl⟩ := List.mem_map.mp hq
  split_ifs with h
  · have hW := totalWeight_pos w hOK
    positivity
  · exact le_rfl

theorem sum_map_ite_div (W : ℚ) : ∀ l : List ℚ,
    (l.map (fun w => if 0 < w then w / W * 100 else 0)).sum
      = (l.filter (fun w => decide (0 < w))).sum / W * 100
  | [] => by simp
  | a :: t => by
      by_cases h : 0 < a
      · rw [List.map_cons, List.sum_cons, sum_map_ite_div W t,
            List.filter_cons_of_pos (by simpa using h), List.sum_cons, if_pos h]
        ring
      · rw [List.map_cons, List.sum_cons, sum_map_ite_div W t,
            List.filter_cons_of_neg (by simpa using h), if_neg h]
        ring

theorem rawVals_sum (w : Weights) (hOK : WeightsOK w) : (rawVals w).sum = 100 := by
  unfold rawVals
  rw [sum_map_ite_div (totalWeight w) w.values]
  have : (w.values.filter (fun x => decide (0 < x))).sum = totalWeight w := rfl
  rw [this, div_self (ne_of_gt (totalWeight_pos w hOK))]
  norm_num

theorem sum_map_sub_pyInt : ∀ l : List ℚ,
    (l.map (fun q => q - (pyInt q : ℚ))).sum = l.sum - ((l.map pyInt).sum : ℚ)
  | [] => by simp
  | a :: t => by
      rw [List.map_cons, List.sum_cons, sum_map_sub_pyInt t, List.sum_cons,
          List.map_cons, List.sum_cons]
      push_cast
      ring

theorem frac_sum_nonneg : ∀ l : List ℚ, (∀ q ∈ l, 0 ≤ q) →
    0 ≤ (l.map (fun q => q - (pyInt q : ℚ))).sum
  | [], _ => le_rfl
  | a :: t, h => by
      rw [List.map_cons, List.sum_cons]
      exact add_nonneg (pyInt_frac_nonneg (h a (List.mem_cons_self a t)))
        (frac_sum_nonneg t (fun q hq => h q (List.mem_cons_of_mem a hq)))

theorem frac_sum_le_length : ∀ l : List ℚ, (∀ q ∈ l, 0 ≤ q) →
    (l.map (fun q => q - (pyInt q : ℚ))).sum ≤ (l.length : ℚ)
  | [], _ => by simp
  | a :: t, h => by
      rw [List.map_cons, List.sum_cons, List.length_cons]
      have h1 := pyInt_frac_lt_one (h a (List.mem_cons_self a t))
      have h2 := frac_sum_le_length t (fun q hq => h q (List.mem_cons_of_mem a hq))
      push_cast
      linarith

theorem frac_sum_lt_length : ∀ l : List ℚ, (∀ q ∈ l, 0 ≤ q) → l ≠ [] →
    (l.map (fun q => q - (pyInt q : ℚ))).sum < (l.length : ℚ)
  | [], _, hne => absurd rfl hne
  | a :: t, h, _ => by
      rw [List.map_cons, List.sum_cons, List.length_cons]
      have h1 := pyInt_frac_lt_one (h a (List.mem_cons_self a t))
      have h2 := frac_sum_le_length t (fun q hq => h q (List.mem_cons_of_mem a hq))
      push_cast
      linarith

theorem pctDeficit_cast (p : Profile) :
    (pctDeficit p : ℚ) = ((pctRemainders p).map Prod.fst).sum := by
  rw [pctRemainders_fst, sum_map_sub_pyInt,
      rawVals_sum (computeWeights p) (computeWeights_ok p)]
  unfold pctDeficit
  rw [pctBase_snd]
  push_cast [Int.cast_list_sum]
  rw [List.map_map]

end CalTax

namespace CalTax

/-! ### Deficit bounds and the award step -/

theorem pctDeficit_nonneg (p : Profile) : 0 ≤ pctDeficit p := by
  have h : (0:ℚ) ≤ (pctDeficit p : ℚ) := by
    rw [pctDeficit_cast, pctRemainders_fst]
    exact frac_sum_nonneg _ (rawVals_nonneg _ (computeWeights_ok p))
  exact_mod_cast h

theorem pctDeficit_le_7 (p : Profile) : pctDeficit p ≤ 7 := by
  have h : (pctDeficit p : ℚ) < 8 := by
    rw [pctDeficit_cast, pctRemainders_fst]
    have hlt := frac_sum_lt_length (rawVals (computeWeights p))
      (rawVals_nonneg _ (computeWeights_ok p))
      (List.length_pos.mp (by rw [rawVals_length]; norm_num))
    rw [rawVals_length] at hlt
    exact_mod_cast hlt
  have h8 : pctDeficit p < 8 := by exact_mod_cast h
  omega

theorem awardTop_fst (r : (ℚ × String) → (ℚ × String) → Prop) [DecidableRel r]
    (base : List (String × ℤ)) (rems : List (ℚ × String)) (n : ℤ) :
    (awardTop r base rems n).map Prod.fst = base.map Prod.fst := by
  unfold awardTop
  split
  · rw [List.map_map]; rfl
  · rfl

theorem mem_winnersOf (r : (ℚ × String) → (ℚ × String) → Prop) [DecidableRel r]
    (rems : List (ℚ × String)) (n : ℤ) {x : String}
    (hx : x ∈ winnersOf r rems n) : x ∈ rems.map Prod.snd := by
  unfold winnersOf at hx
  rw [List.map_take] at hx
  have hx2 := List.take_subset _ _ hx
  exact (((sortBy_perm r rems).map Prod.snd).mem_iff).mp hx2

theorem winnersOf_nodup (r : (ℚ × String) → (ℚ × String) → Prop) [DecidableRel r]
    (rems : List (ℚ × String)) (n : ℤ) (h : (rems.map Prod.snd).Nodup) :
    (winnersOf r rems n).Nodup := by
  unfold winnersOf
  rw [List.map_take]
  exact (List.take_sublist _ _).nodup
    ((((sortBy_perm r rems).map Prod.snd).nodup_iff).mpr h)

theorem winnersOf_length (r : (ℚ × String) → (ℚ × String) → Prop) [DecidableRel r]
    (rems : List (ℚ × String)) (n : ℤ) (h : n.toNat ≤ rems.length) :
    (winnersOf r rems n).length = n.toNat := by
  unfold winnersOf
  rw [List.map_take, List.length_take, List.length_map,
      (sortBy_perm r rems).length_eq]
  omega

theorem award_map_sum (ws : List String) : ∀ base : List (String × ℤ),
    ((base.map (fun kv => (kv.1, if ws.contains kv.1 then kv.2 + 1 else kv.2))).map Prod.snd).sum
      = (base.map Prod.snd).sum + ((base.map Prod.fst).countP (fun k => ws.contains k) : ℤ)
  | [] => by simp
  | kv :: t => by
      rw [List.map_cons, List.map_cons, List.sum_cons, List.map_cons, List.sum_cons,
          List.map_cons, List.countP_cons, award_map_sum ws t]
      by_cases h : ws.contains kv.1
      · simp only [h, if_true]
        push_cast
        ring
      · simp only [h, if_false]
        push_cast [h]
        ring

theorem countP_contains_eq_length (ws keys : List String) (hws : ws.Nodup)
    (hkeys : keys.Nodup) (hsub : ∀ x ∈ ws, x ∈ keys) :
    keys.countP (fun k => ws.contains k) = ws.length := by
  rw [List.countP_eq_length_filter]
  have hperm : List.Perm (keys.filter (fun k => ws.contains k)) ws := by
    apply List.perm_of_nodup_nodup_toFinset_eq (hkeys.filter _) hws
    ext x
    simp only [List.mem_toFinset, List.mem_filter, List.elem_iff, List.contains_eq_any_beq]
    constructor
    · intro hx
      have := hx.2
      rw [List.any_eq_true] at this
      obtain ⟨y, hy, hxy⟩ := this
      rwa [show x = y from beq_iff_eq.mp hxy]
    · intro hx
      refine ⟨hsub x hx, ?_⟩
      rw [List.any_eq_true]
      exact ⟨x, hx, beq_iff_eq.mpr rfl⟩
  exact hperm.length_eq

theorem awardTop_sum (r : (ℚ × String) → (ℚ × String) → Prop) [DecidableRel r]
    (base : List (String × ℤ)) (rems : List (ℚ × String)) (n : ℤ)
    (hkeys : rems.map Prod.snd = base.map Prod.fst)
    (hnodup : (base.map Prod.fst).Nodup)
    (hn : n ≤ (base.map Prod.fst).length) :
    ((awardTop r base rems n).map Prod.snd).sum
      = (base.map Prod.snd).sum + max 0 n := by
  unfold awardTop
  split
  · rename_i h0
    rw [award_map_sum]
    rw [countP_contains_eq_length _ _
      (winnersOf_nodup r rems n (hkeys ▸ hnodup))
      hnodup
      (fun x hx => hkeys ▸ mem_winnersOf r rems n hx)]
    rw [winnersOf_length r rems n
      (by rw [← List.length_map rems Prod.snd, hkeys] at *; omega)]
    rw [max_eq_right (le_of_lt h0)]
    omega
  · rename_i h0
    rw [max_eq_left (by omega)]
    omega

end CalTax

namespace CalTax

/-! ### The percentage pass -/

theorem intPercentages_fst (p : Profile) :
    (intPercentages p).map Prod.fst = categoryNames := by
  unfold intPercentages
  rw [awardTop_fst, pctBase_fst]

theorem intPercentages_length (p : Profile) : (intPercentages p).length = 8 := by
  have h := congrArg List.length (intPercentages_fst p)
  rwa [List.length_map] at h

theorem sum_intPercentages (p : Profile) :
    ((intPercentages p).map Prod.snd).sum = 100 := by
  unfold intPercentages
  rw [awardTop_sum tupleDesc (pctBase p) (pctRemainders p) (pctDeficit p)
    (by rw [pctRemainders_snd, pctBase_fst])
    (by rw [pctBase_fst]; exact categoryNames_nodup)
    (by
      rw [pctBase_fst]
      have h7 := pctDeficit_le_7 p
      have hl : (categoryNames.length : ℤ) = 8 := rfl
      omega)]
  rw [max_eq_right (pctDeficit_nonneg p)]
  unfold pctDeficit
  ring

theorem pctBase_val_nonneg (p : Profile) : ∀ kv ∈ pctBase p, 0 ≤ kv.2 := by
  intro kv hkv
  unfold pctBase at hkv
  obtain ⟨kp, hkp, rfl⟩ := List.mem_map.mp hkv
  have h2 : kp.2 ∈ rawVals (computeWeights p) := by
    rw [← rawPercentages_snd]
    exact List.mem_map_of_mem Prod.snd hkp
  exact pyInt_nonneg (rawVals_nonneg _ (computeWeights_ok p) _ h2)

theorem awardTop_nonneg (r : (ℚ × String) → (ℚ × String) → Prop) [DecidableRel r]
    (base : List (String × ℤ)) (rems : List (ℚ × String)) (n : ℤ)
    (h : ∀ kv ∈ base, 0 ≤ kv.2) : ∀ kv ∈ awardTop r base rems n, 0 ≤ kv.2 := by
  intro kv hkv
  unfold awardTop at hkv
  split at hkv
  · obtain ⟨kv', hkv', rfl⟩ := List.mem_map.mp hkv
    dsimp only
    split
    · have := h kv' hkv'
      omega
    · exact h kv' hkv'
  · exact h kv hkv

theorem intPercentages_nonneg (p : Profile) : ∀ kv ∈ intPercentages p, 0 ≤ kv.2 :=
  awardTop_nonneg _ _ _ _ (pctBase_val_nonneg p)

/-! ### The amount pass -/

theorem map_fst_pair {β γ : Type} (f : String × β → γ) (l : List (String × β)) :
    ((l.map (fun kv => (kv.1, f kv))).map Prod.fst) = l.map Prod.fst := by
  rw [List.map_map]
  rfl

theorem rawAmounts_fst (p : Profile) :
    (rawAmounts p).map Prod.fst = categoryNames := by
  unfold rawAmounts
  rw [map_fst_pair]
  exact intPercentages_fst p

theorem amtBase_fst (p : Profile) : (amtBase p).map Prod.fst = categoryNames := by
  unfold amtBase
  rw [map_fst_pair]
  exact rawAmounts_fst p

theorem amtRemainders_snd (p : Profile) :
    (amtRemainders p).map Prod.snd = categoryNames := by
  unfold amtRemainders
  rw [List.map_map]
  exact rawAmounts_fst p

theorem amtBase_snd (p : Profile) :
    (amtBase p).map Prod.snd = ((rawAmounts p).map Prod.snd).map pyInt := by
  unfold amtBase
  rw [List.map_map, List.map_map]
  rfl

theorem amtRemainders_fst (p : Profile) :
    (amtRemainders p).map Prod.fst
      = ((rawAmounts p).map Prod.snd).map (fun q => q - (pyInt q : ℚ)) := by
  unfold amtRemainders
  rw [List.map_map, List.map_map]
  rfl

theorem sum_map_amount (t : ℚ) : ∀ l : List (String × ℤ),
    ((l.map (fun kv => (kv.1, t * (kv.2 : ℚ) / 100))).map Prod.snd).sum
      = t * (((l.map Prod.snd).sum : ℤ) : ℚ) / 100
  | [] => by simp
  | kv :: tl => by
      rw [List.map_cons, List.map_cons, List.sum_cons, sum_map_amount t tl,
          List.map_cons, List.sum_cons]
      push_cast
      ring

theorem rawAmounts_sum (p : Profile) :
    ((rawAmounts p).map Prod.snd).sum = p.total_expense := by
  unfold rawAmounts
  rw [sum_map_amount, sum_intPercentages]
  norm_num

theorem rawAmounts_snd_nonneg (p : Profile) (h : 0 ≤ p.total_expense) :
    ∀ q ∈ (rawAmounts p).map Prod.snd, 0 ≤ q := by
  intro q hq
  unfold rawAmounts at hq
  rw [List.map_map] at hq
  obtain ⟨kv, hkv, rfl⟩ := List.mem_map.mp hq
  have hp := intPercentages_nonneg p kv hkv
  have h2 : (0:ℚ) ≤ (kv.2 : ℚ) := by exact_mod_cast hp
  exact div_nonneg (mul_nonneg h h2) (by norm_num)

theorem rawAmounts_length (p : Profile) :
    ((rawAmounts p).map Prod.snd).length = 8 := by
  unfold rawAmounts
  rw [List.map_map, List.length_map]
  exact intPercentages_length p

theorem totalAllocated_sub (p : Profile) :
    ((amtRemainders p).map Prod.fst).sum
      = p.total_expense - (totalAllocated p : ℚ) := by
  rw [amtRemainders_fst, sum_map_sub_pyInt, rawAmounts_sum]
  unfold totalAllocated
  rw [amtBase_snd]

theorem remainingBdt_bounds (p : Profile) (h : 0 ≤ p.total_expense) :
    0 ≤ remainingBdt p ∧ remainingBdt p ≤ 8 := by
  have hfs0 : (0:ℚ) ≤ ((amtRemainders p).map Prod.fst).sum := by
    rw [amtRemainders_fst]
    exact frac_sum_nonneg _ (rawAmounts_snd_nonneg p h)
  have hfs8 : ((amtRemainders p).map Prod.fst).sum < 8 := by
    rw [amtRemainders_fst]
    have hlt := frac_sum_lt_length ((rawAmounts p).map Prod.snd)
      (rawAmounts_snd_nonneg p h)
      (List.length_pos.mp (by rw [rawAmounts_length]; norm_num))
    rwa [rawAmounts_length] at hlt
  have heq : p.total_expense - (totalAllocated p : ℚ)
      = ((amtRemainders p).map Prod.fst).sum := (totalAllocated_sub p).symm
  constructor
  · have h1 : (-1:ℚ) < (remainingBdt p : ℚ) := by
      unfold remainingBdt
      have := le_pyRound (p.total_expense - (totalAllocated p : ℚ))
      rw [heq] at this ⊢
      linarith
    have : (-1:ℤ) < remainingBdt p := by exact_mod_cast h1
    omega
  · have h1 : (remainingBdt p : ℚ) < 9 := by
      unfold remainingBdt
      have := pyRound_le (p.total_expense - (totalAllocated p : ℚ))
      rw [heq] at this ⊢
      linarith
    have : remainingBdt p < 9 := by exact_mod_cast h1
    omega

end CalTax

namespace CalTax

/-! ### Order properties of the sort comparisons -/

theorem tupleDesc_total : ∀ a b : ℚ × String, tupleDesc a b ∨ tupleDesc b a := by
  intro a b
  rcases lt_trichotomy a.1 b.1 with h | h | h
  · exact Or.inr (Or.inl h)
  · rcases le_total (stringRank a.2) (stringRank b.2) with hr | hr
    · exact Or.inl (Or.inr ⟨h, hr⟩)
    · exact Or.inr (Or.inr ⟨h.symm, hr⟩)
  · exact Or.inl (Or.inl h)

theorem tupleDesc_trans : ∀ a b c : ℚ × String,
    tupleDesc a b → tupleDesc b c → tupleDesc a c := by
  intro a b c h1 h2
  rcases h1 with h1 | ⟨h1e, h1r⟩
  · rcases h2 with h2 | ⟨h2e, _⟩
    · exact Or.inl (lt_trans h2 h1)
    · exact Or.inl (h2e ▸ h1)
  · rcases h2 with h2 | ⟨h2e, h2r⟩
    · exact Or.inl (h1e ▸ h2)
    · exact Or.inr ⟨h1e.trans h2e, le_trans h1r h2r⟩

theorem specDesc_total : ∀ a b : ℚ × String, specDesc a b ∨ specDesc b a :=
  fun a b => le_total b.1 a.1

theorem specDesc_trans : ∀ a b c : ℚ × String,
    specDesc a b → specDesc b c → specDesc a c :=
  fun _ _ _ h1 h2 => le_trans h2 h1

theorem tupleDesc_fst (a b : ℚ × String) (h : tupleDesc a b) : b.1 ≤ a.1 := by
  rcases h with h | ⟨h, _⟩
  · exact le_of_lt h
  · exact le_of_eq h.symm

theorem sortBy_tupleDesc_fst (l : List (ℚ × String)) :
    (sortBy tupleDesc l).Pairwise (fun a b => b.1 ≤ a.1) :=
  (sortBy_pairwise tupleDesc tupleDesc_total tupleDesc_trans l).imp
    (tupleDesc_fst _ _)

/-! ### Only positive remainders are drawn -/

theorem take_fst_pos : ∀ (s : List (ℚ × String)) (k : ℕ),
    s.Pairwise (fun a b => b.1 ≤ a.1) →
    (∀ a ∈ s, 0 ≤ a.1 ∧ a.1 < 1) →
    ((k : ℚ) ≤ (s.map Prod.fst).sum + 1/2) →
    ∀ a ∈ s.take k, 0 < a.1
  | _, 0, _, _, _ => by simp
  | [], _ + 1, _, _, _ => by simp
  | b :: t, k + 1, hp, hb, hs => by
      rw [List.pairwise_cons] at hp
      have hbpos : 0 < b.1 := by
        by_contra hle
        push_neg at hle
        have hsum : (t.map Prod.fst).sum = 0 := by
          apply List.sum_eq_zero
          intro y hy
          obtain ⟨x, hx, rfl⟩ := List.mem_map.mp hy
          exact le_antisymm (le_trans (hp.1 x hx) hle)
            (hb x (List.mem_cons_of_mem b hx)).1
        rw [List.map_cons, List.sum_cons, hsum] at hs
        have hk0 : (0:ℚ) ≤ (k : ℚ) := Nat.cast_nonneg k
        push_cast at hs
        linarith
      intro a ha
      rw [List.take_succ_cons] at ha
      rcases List.mem_cons.mp ha with rfl | hat
      · exact hbpos
      · refine take_fst_pos t k hp.2
          (fun x hx => hb x (List.mem_cons_of_mem b hx)) ?_ a hat
        have hb1 := (hb b (List.mem_cons_self b t)).2
        rw [List.map_cons, List.sum_cons] at hs
        push_cast at hs ⊢
        linarith

theorem pctRemainders_mem_bounds (p : Profile) :
    ∀ a ∈ pctRemainders p, 0 ≤ a.1 ∧ a.1 < 1 := by
  intro a ha
  unfold pctRemainders at ha
  obtain ⟨kp, hkp, rfl⟩ := List.mem_map.mp ha
  have h2 : kp.2 ∈ rawVals (computeWeights p) := by
    rw [← rawPercentages_snd]
    exact List.mem_map_of_mem Prod.snd hkp
  have hq := rawVals_nonneg _ (computeWeights_ok p) _ h2
  exact ⟨pyInt_frac_nonneg hq, pyInt_frac_lt_one hq⟩

theorem amtRemainders_mem_bounds (p : Profile) (h : 0 ≤ p.total_expense) :
    ∀ a ∈ amtRemainders p, 0 ≤ a.1 ∧ a.1 < 1 := by
  intro a ha
  unfold amtRemainders at ha
  obtain ⟨kp, hkp, rfl⟩ := List.mem_map.mp ha
  have h2 : kp.2 ∈ (rawAmounts p).map Prod.snd :=
    List.mem_map_of_mem Prod.snd hkp
  have hq := rawAmounts_snd_nonneg p h _ h2
  exact ⟨pyInt_frac_nonneg hq, pyInt_frac_lt_one hq⟩

theorem pct_winner_pos (p : Profile) :
    ∀ a ∈ (sortBy tupleDesc (pctRemainders p)).take (pctDeficit p).toNat,
      0 < a.1 := by
  apply take_fst_pos
  · exact sortBy_tupleDesc_fst _
  · intro a ha
    exact pctRemainders_mem_bounds p a
      ((sortBy_perm tupleDesc (pctRemainders p)).mem_iff.mp ha)
  · rw [((sortBy_perm tupleDesc (pctRemainders p)).map Prod.fst).sum_eq]
    have hc : (((pctDeficit p).toNat : ℤ) : ℚ) = (pctDeficit p : ℚ) := by
      rw [Int.toNat_of_nonneg (pctDeficit_nonneg p)]
    push_cast at hc
    rw [hc, ← pctDeficit_cast]
    linarith

theorem amt_winner_pos (p : Profile) (h : 0 ≤ p.total_expense) :
    ∀ a ∈ (sortBy tupleDesc (amtRemainders p)).take (remainingBdt p).toNat,
      0 < a.1 := by
  apply take_fst_pos
  · exact sortBy_tupleDesc_fst _
  · intro a ha
    exact amtRemainders_mem_bounds p h a
      ((sortBy_perm tupleDesc (amtRemainders p)).mem_iff.mp ha)
  · rw [((sortBy_perm tupleDesc (amtRemainders p)).map Prod.fst).sum_eq]
    have hc : (((remainingBdt p).toNat : ℤ) : ℚ) = (remainingBdt p : ℚ) := by
      rw [Int.toNat_of_nonneg (remainingBdt_bounds p h).1]
    have hle : (remainingBdt p : ℚ)
        ≤ ((amtRemainders p).map Prod.fst).sum + 1/2 := by
      unfold remainingBdt
      have := pyRound_le (p.total_expense - (totalAllocated p : ℚ))
      rw [totalAllocated_sub]
      linarith
    push_cast at hc
    rw [hc]
    exact hle

theorem key_not_winner (r : (ℚ × String) → (ℚ × String) → Prop) [DecidableRel r]
    (rems : List (ℚ × String)) (n : ℤ) (k : String)
    (hpos : ∀ a ∈ (sortBy r rems).take n.toNat, 0 < a.1)
    (hk : ∀ a ∈ rems, a.2 = k → a.1 = 0) : k ∉ winnersOf r rems n := by
  intro hmem
  unfold winnersOf at hmem
  obtain ⟨a, ha, rfl⟩ := List.mem_map.mp hmem
  have h1 := hpos a ha
  have h2 : a ∈ rems :=
    (sortBy_perm r rems).mem_iff.mp (List.take_subset _ _ ha)
  rw [hk a h2 rfl] at h1
  exact lt_irrefl 0 h1

theorem awardTop_key_val (r : (ℚ × String) → (ℚ × String) → Prop) [DecidableRel r]
    (base : List (String × ℤ)) (rems : List (ℚ × String)) (n : ℤ)
    (k : String) (v : ℤ)
    (hbase : ∀ kv ∈ base, kv.1 = k → kv.2 = v)
    (hnw : k ∉ winnersOf r rems n) :
    ∀ kv ∈ awardTop r base rems n, kv.1 = k → kv.2 = v := by
  intro kv hkv hk
  unfold awardTop at hkv
  split at hkv
  · obtain ⟨kv', hkv', rfl⟩ := List.mem_map.mp hkv
    dsimp only at hk ⊢
    have hc : ((winnersOf r rems n).contains kv'.1) = false := by
      by_contra hcc
      rw [Bool.not_eq_false] at hcc
      exact hnw (hk ▸ List.elem_iff.mp hcc)
    rw [hc]
    simp only [if_false, Bool.false_eq_true]
    exact hbase kv' hkv' hk
  · exact hbase kv hkv hk

end CalTax

namespace CalTax

/-! ### The education category when there are no kids -/

theorem edu_weight_zero (p : Profile) (h : p.has_kids = false) :
    (computeWeights p).education = 0 := by
  unfold computeWeights modeAdjust staffAdjust homeAdjust famAdjust locAdjust kidsAdjust
  rw [h]
  simp only [Bool.false_eq_true, if_false]
  split_ifs <;> rfl

theorem intAmounts_fst (p : Profile) :
    (intAmounts p).map Prod.fst = categoryNames := by
  unfold intAmounts
  rw [awardTop_fst, amtBase_fst]

theorem raw_key_edu (w : Weights) (hedu : w.education = 0) :
    ∀ kp ∈ rawPercentages w, kp.1 = eduName → kp.2 = 0 := by
  intro kp hkp hk
  have hzip : categoryNames.zip w.values =
      [("Food, Clothing and Other Essentials", w.food),
       ("Accommodation Expense", w.accommodation),
       ("Electricity", w.electricity),
       ("Gas, Water, Sewer and Garbage", w.gas),
       ("Phone, Internet, TV channels & Subscriptions", w.telecom),
       ("Home-Support Staff and Other Expenses", w.homeSupport),
       ("Education Expenses (for kids)", w.education),
       ("Festival, Party, Events", w.festival)] := rfl
  unfold rawPercentages at hkp
  rw [hzip] at hkp
  obtain ⟨kv, hkv, rfl⟩ := List.mem_map.mp hkp
  dsimp only at hk ⊢
  simp only [List.mem_cons, List.not_mem_nil, or_false] at hkv
  rcases hkv with rfl | rfl | rfl | rfl | rfl | rfl | rfl | rfl
  · simp [eduName] at hk
  · simp [eduName] at hk
  · simp [eduName] at hk
  · simp [eduName] at hk
  · simp [eduName] at hk
  · simp [eduName] at hk
  · dsimp only
    rw [hedu]
    exact if_neg (lt_irrefl 0)
  · simp [eduName] at hk

theorem pctBase_key_edu (p : Profile) (h : (computeWeights p).education = 0) :
    ∀ kv ∈ pctBase p, kv.1 = eduName → kv.2 = 0 := by
  intro kv hkv hk
  unfold pctBase at hkv
  obtain ⟨kp, hkp, rfl⟩ := List.mem_map.mp hkv
  dsimp only at hk ⊢
  rw [raw_key_edu _ h kp hkp hk]
  exact pyInt_zero

theorem pctRemainders_key_edu (p : Profile) (h : (computeWeights p).education = 0) :
    ∀ a ∈ pctRemainders p, a.2 = eduName → a.1 = 0 := by
  intro a ha hk
  unfold pctRemainders at ha
  obtain ⟨kp, hkp, rfl⟩ := List.mem_map.mp ha
  dsimp only at hk ⊢
  rw [raw_key_edu _ h kp hkp hk, pyInt_zero]
  norm_num

theorem intPercentages_key_edu (p : Profile) (h : p.has_kids = false) :
    ∀ kv ∈ intPercentages p, kv.1 = eduName → kv.2 = 0 := by
  have hw := edu_weight_zero p h
  exact awardTop_key_val tupleDesc (pctBase p) (pctRemainders p) (pctDeficit p)
    eduName 0 (pctBase_key_edu p hw)
    (key_not_winner tupleDesc (pctRemainders p) (pctDeficit p) eduName
      (pct_winner_pos p) (pctRemainders_key_edu p hw))

theorem rawAmounts_key_edu (p : Profile) (h : p.has_kids = false) :
    ∀ kp ∈ rawAmounts p, kp.1 = eduName → kp.2 = 0 := by
  intro kp hkp hk
  unfold rawAmounts at hkp
  obtain ⟨kv, hkv, rfl⟩ := List.mem_map.mp hkp
  dsimp only at hk ⊢
  rw [intPercentages_key_edu p h kv hkv hk]
  norm_num

theorem amtBase_key_edu (p : Profile) (h : p.has_kids = false) :
    ∀ kv ∈ amtBase p, kv.1 = eduName → kv.2 = 0 := by
  intro kv hkv hk
  unfold amtBase at hkv
  obtain ⟨kp, hkp, rfl⟩ := List.mem_map.mp hkv
  dsimp only at hk ⊢
  rw [rawAmounts_key_edu p h kp hkp hk]
  exact pyInt_zero

theorem amtRemainders_key_edu (p : Profile) (h : p.has_kids = false) :
    ∀ a ∈ amtRemainders p, a.2 = eduName → a.1 = 0 := by
  intro a ha hk
  unfold amtRemainders at ha
  obtain ⟨kp, hkp, rfl⟩ := List.mem_map.mp ha
  dsimp only at hk ⊢
  rw [rawAmounts_key_edu p h kp hkp hk, pyInt_zero]
  norm_num

theorem intAmounts_key_edu (p : Profile) (h : p.has_kids = false)
    (ht : 0 ≤ p.total_expense) :
    ∀ kv ∈ intAmounts p, kv.1 = eduName → kv.2 = 0 :=
  awardTop_key_val tupleDesc (amtBase p) (amtRemainders p) (remainingBdt p)
    eduName 0 (amtBase_key_edu p h)
    (key_not_winner tupleDesc (amtRemainders p) (remainingBdt p) eduName
      (amt_winner_pos p ht) (amtRemainders_key_edu p h))

end CalTax

namespace CalTax

/-! ### Mode fallback and independence from the total -/

theorem modeAdjust_id (p : Profile) (w : Weights)
    (h1 : p.mode ≠ "conservative") (h2 : p.mode ≠ "comfortable") :
    modeAdjust p w = w := by
  unfold modeAdjust
  rw [if_neg h1, if_neg h2]

theorem computeWeights_mode_fallback (p : Profile)
    (h1 : p.mode ≠ "conservative") (h2 : p.mode ≠ "comfortable") :
    computeWeights p = computeWeights { p with mode := "balanced" } := by
  unfold computeWeights
  rw [modeAdjust_id p _ h1 h2,
      modeAdjust_id { p with mode := "balanced" } _ (by simp) (by simp)]
  rfl

theorem alloc_congr (p q : Profile)
    (hw : computeWeights p = computeWeights q)
    (ht : p.total_expense = q.total_expense) :
    compute_allocation p = compute_allocation q := by
  unfold compute_allocation intAmounts remainingBdt totalAllocated amtBase
    amtRemainders rawAmounts intPercentages pctDeficit pctBase pctRemainders
  rw [hw, ht]

theorem amtBase_val_nonneg (p : Profile) (h : 0 ≤ p.total_expense) :
    ∀ kv ∈ amtBase p, 0 ≤ kv.2 := by
  intro kv hkv
  unfold amtBase at hkv
  obtain ⟨kp, hkp, rfl⟩ := List.mem_map.mp hkv
  exact pyInt_nonneg
    (rawAmounts_snd_nonneg p h _ (List.mem_map_of_mem Prod.snd hkp))

end CalTax

namespace CalTax

/-! ### Evaluated runs at the concrete counterexample profiles -/

theorem rank_phone : stringRank "Phone, Internet, TV channels & Subscriptions" = 0 := by
  simp [stringRank]

theorem rank_hs : stringRank "Home-Support Staff and Other Expenses" = 1 := by
  simp [stringRank]

theorem rank_gas : stringRank "Gas, Water, Sewer and Garbage" = 2 := by
  simp [stringRank]

theorem rank_food : stringRank "Food, Clothing and Other Essentials" = 3 := by
  simp [stringRank]

theorem rank_fest : stringRank "Festival, Party, Events" = 4 := by
  simp [stringRank]

theorem rank_elec : stringRank "Electricity" = 5 := by
  simp [stringRank]

theorem rank_edu : stringRank "Education Expenses (for kids)" = 6 := by
  simp [stringRank]

theorem rank_acc : stringRank "Accommodation Expense" = 7 := by
  simp [stringRank]

theorem evalTie_weights : computeWeights ceProfileTie = ⟨69/2, 126/5, 5/2, 3, 7/2, 14/5, 0, 6⟩ := by
  have hloc : pyLower (pyStrip "other_area") = "other_area" := rfl
  simp [computeWeights, modeAdjust, staffAdjust, homeAdjust, famAdjust,
    locAdjust, kidsAdjust, baseWeights, ceProfileTie, metroLocs, hloc]
  norm_num [Weights.mk.injEq]

theorem evalTie_totalWeight : totalWeight ⟨69/2, 126/5, 5/2, 3, 7/2, 14/5, 0, 6⟩ = 155/2 := by
  norm_num [totalWeight, Weights.values, List.filter_cons_of_pos, List.filter_cons_of_neg]

theorem evalTie_raw : rawPercentages ⟨69/2, 126/5, 5/2, 3, 7/2, 14/5, 0, 6⟩ =
    [("Food, Clothing and Other Essentials", 1380/31),
       ("Accommodation Expense", 1008/31),
       ("Electricity", 100/31),
       ("Gas, Water, Sewer and Garbage", 120/31),
       ("Phone, Internet, TV channels & Subscriptions", 140/31),
       ("Home-Support Staff and Other Expenses", 112/31),
       ("Education Expenses (for kids)", 0),
       ("Festival, Party, Events", 240/31)] := by
  norm_num [rawPercentages, categoryNames, Weights.values, evalTie_totalWeight, Prod.mk.injEq]

theorem evalTie_base : pctBase ceProfileTie =
    [("Food, Clothing and Other Essentials", 44),
       ("Accommodation Expense", 32),
       ("Electricity", 3),
       ("Gas, Water, Sewer and Garbage", 3),
       ("Phone, Internet, TV channels & Subscriptions", 4),
       ("Home-Support Staff and Other Expenses", 3),
       ("Education Expenses (for kids)", 0),
       ("Festival, Party, Events", 7)] := by
  norm_num [pctBase, evalTie_weights, evalTie_raw, pyInt, Prod.mk.injEq]

theorem evalTie_rems : pctRemainders ceProfileTie =
    [(((16:ℚ)/31), "Food, Clothing and Other Essentials"),
       (16/31, "Accommodation Expense"),
       (7/31, "Electricity"),
       (27/31, "Gas, Water, Sewer and Garbage"),
       (16/31, "Phone, Internet, TV channels & Subscriptions"),
       (19/31, "Home-Support Staff and Other Expenses"),
       (0, "Education Expenses (for kids)"),
       (23/31, "Festival, Party, Events")] := by
  norm_num [pctRemainders, evalTie_weights, evalTie_raw, pyInt, Prod.mk.injEq]

theorem evalTie_deficit : pctDeficit ceProfileTie = 4 := by
  norm_num [pctDeficit, evalTie_base]

theorem evalTie_sorted : sortBy tupleDesc (pctRemainders ceProfileTie) =
    [(((27:ℚ)/31), "Gas, Water, Sewer and Garbage"),
       (23/31, "Festival, Party, Events"),
       (19/31, "Home-Support Staff and Other Expenses"),
       (16/31, "Phone, Internet, TV channels & Subscriptions"),
       (16/31, "Food, Clothing and Other Essentials"),
       (16/31, "Accommodation Expense"),
       (7/31, "Electricity"),
       (0, "Education Expenses (for kids)")] := by
  rw [evalTie_rems]
  norm_num [sortBy, insertBy, tupleDesc, rank_phone, rank_hs, rank_gas,
    rank_food, rank_fest, rank_elec, rank_edu, rank_acc, Prod.mk.injEq]

theorem evalTie_pct : intPercentages ceProfileTie =
    [("Food, Clothing and Other Essentials", 44),
       ("Accommodation Expense", 32),
       ("Electricity", 3),
       ("Gas, Water, Sewer and Garbage", 4),
       ("Phone, Internet, TV channels & Subscriptions", 5),
       ("Home-Support Staff and Other Expenses", 4),
       ("Education Expenses (for kids)", 0),
       ("Festival, Party, Events", 8)] := by
  unfold intPercentages awardTop winnersOf
  rw [evalTie_deficit, evalTie_sorted, evalTie_base]
  norm_num [Prod.mk.injEq, show ((4:ℤ)).toNat = 4 from rfl]
  simp

theorem evalTie_specSorted : sortBy specDesc (pctRemainders ceProfileTie) =
    [(((27:ℚ)/31), "Gas, Water, Sewer and Garbage"),
       (23/31, "Festival, Party, Events"),
       (19/31, "Home-Support Staff and Other Expenses"),
       (16/31, "Food, Clothing and Other Essentials"),
       (16/31, "Accommodation Expense"),
       (16/31, "Phone, Internet, TV channels & Subscriptions"),
       (7/31, "Electricity"),
       (0, "Education Expenses (for kids)")] := by
  rw [evalTie_rems]
  norm_num [sortBy, insertBy, specDesc, Prod.mk.injEq]

theorem evalTie_specPct : specIntPercentages ceProfileTie =
    [("Food, Clothing and Other Essentials", 45),
       ("Accommodation Expense", 32),
       ("Electricity", 3),
       ("Gas, Water, Sewer and Garbage", 4),
       ("Phone, Internet, TV channels & Subscriptions", 4),
       ("Home-Support Staff and Other Expenses", 4),
       ("Education Expenses (for kids)", 0),
       ("Festival, Party, Events", 8)] := by
  unfold specIntPercentages awardTop winnersOf
  rw [evalTie_deficit, evalTie_specSorted, evalTie_base]
  norm_num [Prod.mk.injEq, show ((4:ℤ)).toNat = 4 from rfl]
  simp

theorem evalHalf_weights : computeWeights ceProfileHalf = ⟨63/2, 126/5, 5/2, 3, 7/2, 14/5, 0, 6⟩ := by
  have hloc : pyLower (pyStrip "other_area") = "other_area" := rfl
  simp [computeWeights, modeAdjust, staffAdjust, homeAdjust, famAdjust,
    locAdjust, kidsAdjust, baseWeights, ceProfileHalf, metroLocs, hloc]
  norm_num [Weights.mk.injEq]

theorem evalHalf_totalWeight : totalWeight ⟨63/2, 126/5, 5/2, 3, 7/2, 14/5, 0, 6⟩ = 149/2 := by
  norm_num [totalWeight, Weights.values, List.filter_cons_of_pos, List.filter_cons_of_neg]

theorem evalHalf_raw : rawPercentages ⟨63/2, 126/5, 5/2, 3, 7/2, 14/5, 0, 6⟩ =
    [("Food, Clothing and Other Essentials", 6300/149),
       ("Accommodation Expense", 5040/149),
       ("Electricity", 500/149),
       ("Gas, Water, Sewer and Garbage", 600/149),
       ("Phone, Internet, TV channels & Subscriptions", 700/149),
       ("Home-Support Staff and Other Expenses", 560/149),
       ("Education Expenses (for kids)", 0),
       ("Festival, Party, Events", 1200/149)] := by
  norm_num [rawPercentages, categoryNames, Weights.values, evalHalf_totalWeight, Prod.mk.injEq]

theorem evalHalf_base : pctBase ceProfileHalf =
    [("Food, Clothing and Other Essentials", 42),
       ("Accommodation Expense", 33),
       ("Electricity", 3),
       ("Gas, Water, Sewer and Garbage", 4),
       ("Phone, Internet, TV channels & Subscriptions", 4),
       ("Home-Support Staff and Other Expenses", 3),
       ("Education Expenses (for kids)", 0),
       ("Festival, Party, Events", 8)] := by
  norm_num [pctBase, evalHalf_weights, evalHalf_raw, pyInt, Prod.mk.injEq]

theorem evalHalf_rems : pctRemainders ceProfileHalf =
    [(((42:ℚ)/149), "Food, Clothing and Other Essentials"),
       (123/149, "Accommodation Expense"),
       (53/149, "Electricity"),
       (4/149, "Gas, Water, Sewer and Garbage"),
       (104/149, "Phone, Internet, TV channels & Subscriptions"),
       (113/149, "Home-Support Staff and Other Expenses"),
       (0, "Education Expenses (for kids)"),
       (8/149, "Festival, Party, Events")] := by
  norm_num [pctRemainders, evalHalf_weights, evalHalf_raw, pyInt, Prod.mk.injEq]

theorem evalHalf_deficit : pctDeficit ceProfileHalf = 3 := by
  norm_num [pctDeficit, evalHalf_base]

theorem evalHalf_sorted : sortBy tupleDesc (pctRemainders ceProfileHalf) =
    [(((123:ℚ)/149), "Accommodation Expense"),
       (113/149, "Home-Support Staff and Other Expenses"),
       (104/149, "Phone, Internet, TV channels & Subscriptions"),
       (53/149, "Electricity"),
       (42/149, "Food, Clothing and Other Essentials"),
       (8/149, "Festival, Party, Events"),
       (4/149, "Gas, Water, Sewer and Garbage"),
       (0, "Education Expenses (for kids)")] := by
  rw [evalHalf_rems]
  norm_num [sortBy, insertBy, tupleDesc, rank_phone, rank_hs, rank_gas,
    rank_food, rank_fest, rank_elec, rank_edu, rank_acc, Prod.mk.injEq]

theorem evalHalf_pct : intPercentages ceProfileHalf =
    [("Food, Clothing and Other Essentials", 42),
       ("Accommodation Expense", 34),
       ("Electricity", 3),
       ("Gas, Water, Sewer and Garbage", 4),
       ("Phone, Internet, TV channels & Subscriptions", 5),
       ("Home-Support Staff and Other Expenses", 4),
       ("Education Expenses (for kids)", 0),
       ("Festival, Party, Events", 8)] := by
  unfold intPercentages awardTop winnersOf
  rw [evalHalf_deficit, evalHalf_sorted, evalHalf_base]
  norm_num [Prod.mk.injEq, show ((3:ℤ)).toNat = 3 from rfl]
  simp

theorem evalHalf_rawAmounts : rawAmounts ceProfileHalf =
    [("Food, Clothing and Other Essentials", 21/20),
       ("Accommodation Expense", 17/20),
       ("Electricity", 3/40),
       ("Gas, Water, Sewer and Garbage", 1/10),
       ("Phone, Internet, TV channels & Subscriptions", 1/8),
       ("Home-Support Staff and Other Expenses", 1/10),
       ("Education Expenses (for kids)", 0),
       ("Festival, Party, Events", 1/5)] := by
  unfold rawAmounts
  rw [evalHalf_pct]
  norm_num [ceProfileHalf, Prod.mk.injEq]

theorem evalHalf_amtBase : amtBase ceProfileHalf =
    [("Food, Clothing and Other Essentials", 1),
       ("Accommodation Expense", 0),
       ("Electricity", 0),
       ("Gas, Water, Sewer and Garbage", 0),
       ("Phone, Internet, TV channels & Subscriptions", 0),
       ("Home-Support Staff and Other Expenses", 0),
       ("Education Expenses (for kids)", 0),
       ("Festival, Party, Events", 0)] := by
  unfold amtBase
  rw [evalHalf_rawAmounts]
  norm_num [pyInt, Prod.mk.injEq]

theorem evalHalf_amtRems : amtRemainders ceProfileHalf =
    [(((1:ℚ)/20), "Food, Clothing and Other Essentials"),
       (17/20, "Accommodation Expense"),
       (3/40, "Electricity"),
       (1/10, "Gas, Water, Sewer and Garbage"),
       (1/8, "Phone, Internet, TV channels & Subscriptions"),
       (1/10, "Home-Support Staff and Other Expenses"),
       (0, "Education Expenses (for kids)"),
       (1/5, "Festival, Party, Events")] := by
  unfold amtRemainders
  rw [evalHalf_rawAmounts]
  norm_num [pyInt, Prod.mk.injEq]

theorem evalHalf_allocated : totalAllocated ceProfileHalf = 1 := by
  norm_num [totalAllocated, evalHalf_amtBase]

theorem evalHalf_remaining : remainingBdt ceProfileHalf = 2 := by
  rw [remainingBdt, evalHalf_allocated]
  norm_num [ceProfileHalf, pyRound]

theorem evalHalf_amtSorted : sortBy tupleDesc (amtRemainders ceProfileHalf) =
    [(((17:ℚ)/20), "Accommodation Expense"),
       (1/5, "Festival, Party, Events"),
       (1/8, "Phone, Internet, TV channels & Subscriptions"),
       (1/10, "Home-Support Staff and Other Expenses"),
       (1/10, "Gas, Water, Sewer and Garbage"),
       (3/40, "Electricity"),
       (1/20, "Food, Clothing and Other Essentials"),
       (0, "Education Expenses (for kids)")] := by
  rw [evalHalf_amtRems]
  norm_num [sortBy, insertBy, tupleDesc, rank_phone, rank_hs, rank_gas,
    rank_food, rank_fest, rank_elec, rank_edu, rank_acc, Prod.mk.injEq]

theorem evalHalf_amounts : intAmounts ceProfileHalf =
    [("Food, Clothing and Other Essentials", 1),
       ("Accommodation Expense", 1),
       ("Electricity", 0),
       ("Gas, Water, Sewer and Garbage", 0),
       ("Phone, Internet, TV channels & Subscriptions", 0),
       ("Home-Support Staff and Other Expenses", 0),
       ("Education Expenses (for kids)", 0),
       ("Festival, Party, Events", 1)] := by
  unfold intAmounts awardTop winnersOf
  rw [evalHalf_remaining, evalHalf_amtSorted, evalHalf_amtBase]
  norm_num [Prod.mk.injEq, show ((2:ℤ)).toNat = 2 from rfl]
  simp

end CalTax

namespace CalTax

/-! ### Claim theorems -/

/-- C1: for every Household Profile (in particular every valid one with
`total_expense ≥ 0` and `family_size ≥ 1`), the integer percentages
returned by `compute_allocation` sum to exactly 100. -/
theorem C1_percentages_sum_100 (p : Profile) :
    (((compute_allocation p).1).map Prod.snd).sum = 100 :=
  sum_intPercentages p

/-- C2 (code-bug evaluation): at
`compute_allocation(2.5, 'other_area', 3, False, False, False, 'balanced')`
the returned amounts sum to 3 while `round(total_expense) = round(2.5) = 2`.
The code computes the leftover as `round(total_expense - total_allocated)`
with Python's banker's rounding; here `total_allocated = 1` is odd, so
`round(2.5 - 1) = round(1.5) = 2 ≠ round(2.5) - 1 = 1`, and the award loop
over-shoots `round(total_expense)` by one unit. -/
theorem C2_drift_failing_run :
    (((compute_allocation ceProfileHalf).2).map Prod.snd).sum = 3 ∧
    pyRound ceProfileHalf.total_expense = 2 := by
  constructor
  · show ((intAmounts ceProfileHalf).map Prod.snd).sum = 3
    rw [evalHalf_amounts]
    norm_num
  · show pyRound (5/2) = 2
    norm_num [pyRound]

/-- C3 (counterexample): at
`compute_allocation(1, 'other_area', 5, False, False, False, 'balanced')`
the raw-percentage remainders of Food, Accommodation and Telecom tie at
`16/31`; with `missing = 4` the code awards the last `+1` to the Telecom
key `"Phone, ..."` (largest string under Python's descending tuple sort),
whereas the ranking the claim describes (ties broken by declaration order)
awards it to Food.  The two integer-percentage outputs differ. -/
theorem C3_counterexample :
    specIntPercentages ceProfileTie ≠ intPercentages ceProfileTie := by
  rw [evalTie_specPct, evalTie_pct]
  simp

/-- C3 (amended): in both apportionment passes, every awarded entry
dominates every non-awarded entry in the order `tupleDesc`: descending
fractional remainder, with ties on equal remainders broken by descending
category-name string order (`stringRank`) — not by declaration order. -/
theorem C3_tie_break_amended (p : Profile) :
    (∀ a ∈ (sortBy tupleDesc (pctRemainders p)).take (pctDeficit p).toNat,
      ∀ b ∈ (sortBy tupleDesc (pctRemainders p)).drop (pctDeficit p).toNat,
        tupleDesc a b) ∧
    (∀ a ∈ (sortBy tupleDesc (amtRemainders p)).take (remainingBdt p).toNat,
      ∀ b ∈ (sortBy tupleDesc (amtRemainders p)).drop (remainingBdt p).toNat,
        tupleDesc a b) :=
  ⟨pairwise_take_drop
      (sortBy_pairwise tupleDesc tupleDesc_total tupleDesc_trans _) _,
   pairwise_take_drop
      (sortBy_pairwise tupleDesc tupleDesc_total tupleDesc_trans _) _⟩

/-- Witness for `C3_tie_break_amended` at the tie profile: the Telecom
entry is among the four awarded, the equal-remainder Food entry is not,
and the theorem yields the domination fact between them. -/
theorem C3_tie_break_amended_witness :
    ((16:ℚ)/31, "Phone, Internet, TV channels & Subscriptions")
        ∈ (sortBy tupleDesc (pctRemainders ceProfileTie)).take
            (pctDeficit ceProfileTie).toNat ∧
    ((16:ℚ)/31, "Food, Clothing and Other Essentials")
        ∈ (sortBy tupleDesc (pctRemainders ceProfileTie)).drop
            (pctDeficit ceProfileTie).toNat ∧
    tupleDesc ((16:ℚ)/31, "Phone, Internet, TV channels & Subscriptions")
      ((16:ℚ)/31, "Food, Clothing and Other Essentials") := by
  have h1 : ((16:ℚ)/31, "Phone, Internet, TV channels & Subscriptions")
      ∈ (sortBy tupleDesc (pctRemainders ceProfileTie)).take
          (pctDeficit ceProfileTie).toNat := by
    rw [evalTie_deficit, evalTie_sorted]
    exact List.mem_cons_of_mem _ (List.mem_cons_of_mem _
      (List.mem_cons_of_mem _ (List.mem_cons_self _ _)))
  have h2 : ((16:ℚ)/31, "Food, Clothing and Other Essentials")
      ∈ (sortBy tupleDesc (pctRemainders ceProfileTie)).drop
          (pctDeficit ceProfileTie).toNat := by
    rw [evalTie_deficit, evalTie_sorted]
    exact List.mem_cons_self _ _
  exact ⟨h1, h2, (C3_tie_break_amended ceProfileTie).1 _ h1 _ h2⟩

/-- C4: the DegenerateWeights guard condition `total_weight ≤ 0` is
unsatisfiable — for every input profile the positive-weight total is at
least the food base weight 30, so the division `w / total_weight` is
always well defined.  (The source contains no DegenerateWeights error or
any guard at all; were the condition reachable, the division would be an
unguarded ZeroDivisionError.) -/
theorem C4_degenerate_unreachable (p : Profile) :
    30 ≤ totalWeight (computeWeights p) ∧ 0 < totalWeight (computeWeights p) :=
  ⟨totalWeight_ge _ (computeWeights_ok p),
   totalWeight_pos _ (computeWeights_ok p)⟩

/-- C5: for every valid profile with `has_kids = false`, the Education
weight is 0, the Education key is present in the returned percentages, and
its percentage and amount entries are both 0. -/
theorem C5_education_zero (p : Profile) (hk : p.has_kids = false)
    (ht : 0 ≤ p.total_expense) :
    (computeWeights p).education = 0 ∧
    eduName ∈ ((compute_allocation p).1).map Prod.fst ∧
    (∀ kv ∈ (compute_allocation p).1, kv.1 = eduName → kv.2 = 0) ∧
    (∀ kv ∈ (compute_allocation p).2, kv.1 = eduName → kv.2 = 0) := by
  refine ⟨edu_weight_zero p hk, ?_, intPercentages_key_edu p hk,
    intAmounts_key_edu p hk ht⟩
  show eduName ∈ (intPercentages p).map Prod.fst
  rw [intPercentages_fst]
  simp [categoryNames, eduName]

/-- Witness for `C5_education_zero` at the no-kids Scenario-A profile. -/
theorem C5_education_zero_witness :
    witProfileNK.has_kids = false ∧ 0 ≤ witProfileNK.total_expense ∧
    ((computeWeights witProfileNK).education = 0 ∧
     eduName ∈ ((compute_allocation witProfileNK).1).map Prod.fst ∧
     (∀ kv ∈ (compute_allocation witProfileNK).1, kv.1 = eduName → kv.2 = 0) ∧
     (∀ kv ∈ (compute_allocation witProfileNK).2, kv.1 = eduName → kv.2 = 0)) :=
  ⟨rfl, by norm_num [witProfileNK],
   C5_education_zero witProfileNK rfl (by norm_num [witProfileNK])⟩

/-- C6: for every profile with `total_expense ≥ 0`, every returned
percentage entry and every returned amount entry is a non-negative
integer. -/
theorem C6_entries_nonneg (p : Profile) (h : 0 ≤ p.total_expense) :
    (∀ kv ∈ (compute_allocation p).1, 0 ≤ kv.2) ∧
    (∀ kv ∈ (compute_allocation p).2, 0 ≤ kv.2) :=
  ⟨intPercentages_nonneg p,
   awardTop_nonneg _ _ _ _ (amtBase_val_nonneg p h)⟩

/-- Witness for `C6_entries_nonneg` at the Scenario-A profile. -/
theorem C6_entries_nonneg_witness :
    0 ≤ witProfile.total_expense ∧
    ((∀ kv ∈ (compute_allocation witProfile).1, 0 ≤ kv.2) ∧
     (∀ kv ∈ (compute_allocation witProfile).2, 0 ≤ kv.2)) :=
  ⟨by norm_num [witProfile],
   C6_entries_nonneg witProfile (by norm_num [witProfile])⟩

/-- C7: a mode string that is neither "conservative" nor "comfortable"
behaves exactly like "balanced": the whole returned pair is equal. -/
theorem C7_mode_fallback (p : Profile) (h1 : p.mode ≠ "conservative")
    (h2 : p.mode ≠ "comfortable") :
    compute_allocation p = compute_allocation { p with mode := "balanced" } :=
  alloc_congr _ _ (computeWeights_mode_fallback p h1 h2) rfl

/-- Witness for `C7_mode_fallback` at `mode = "unknown_value"`. -/
theorem C7_mode_fallback_witness :
    witProfileUM.mode ≠ "conservative" ∧ witProfileUM.mode ≠ "comfortable" ∧
    compute_allocation witProfileUM
      = compute_allocation { witProfileUM with mode := "balanced" } :=
  ⟨by decide, by decide,
   C7_mode_fallback witProfileUM (by decide) (by decide)⟩

/-- C8: the returned percentages do not depend on `total_expense`
(same profile with any two totals yields identical percentages); with
`total_expense = 0` every amount is 0 while the percentages still sum to
100. -/
theorem C8_percentages_total_independent (p : Profile) (e : ℚ) :
    (compute_allocation { p with total_expense := e }).1
      = (compute_allocation p).1 ∧
    ((compute_allocation { p with total_expense := 0 }).2).map Prod.snd
      = List.replicate 8 0 ∧
    (((compute_allocation { p with total_expense := 0 }).1).map Prod.snd).sum
      = 100 := by
  refine ⟨rfl, ?_, sum_intPercentages _⟩
  have hq : ∀ kv ∈ amtBase { p with total_expense := (0:ℚ) }, kv.2 = 0 := by
    intro kv hkv
    unfold amtBase rawAmounts at hkv
    rw [List.map_map] at hkv
    obtain ⟨kv2, hkv2, rfl⟩ := List.mem_map.mp hkv
    show pyInt ((0:ℚ) * ((kv2.2:ℤ):ℚ) / 100) = 0
    rw [zero_mul, zero_div]
    exact pyInt_zero
  have halloc : totalAllocated { p with total_expense := (0:ℚ) } = 0 := by
    unfold totalAllocated
    apply List.sum_eq_zero
    intro y hy
    obtain ⟨kv, hkv, rfl⟩ := List.mem_map.mp hy
    exact hq kv hkv
  have hrem : remainingBdt { p with total_expense := (0:ℚ) } = 0 := by
    unfold remainingBdt
    rw [halloc]
    show pyRound ((0:ℚ) - ((0:ℤ):ℚ)) = 0
    norm_num
    exact pyRound_zero
  show (intAmounts { p with total_expense := (0:ℚ) }).map Prod.snd
    = List.replicate 8 0
  unfold intAmounts
  rw [hrem]
  unfold awardTop
  rw [if_neg (lt_irrefl 0)]
  rw [List.eq_replicate_iff]
  constructor
  · rw [List.length_map]
    have hl := congrArg List.length (amtBase_fst { p with total_expense := (0:ℚ) })
    rw [List.length_map] at hl
    rw [hl]
    rfl
  · intro b hb
    obtain ⟨kv, hkv, rfl⟩ := List.mem_map.mp hb
    exact hq kv hkv

/-- C9: the percentage deficit `100 - Σ floors` is an integer between 0
and 7 for every profile. -/
theorem C9_deficit_bounds (p : Profile) :
    0 ≤ pctDeficit p ∧ pctDeficit p ≤ 7 :=
  ⟨pctDeficit_nonneg p, pctDeficit_le_7 p⟩

/-- C10: for every profile with `total_expense ≥ 0`, the amount-correction
leftover `remaining_bdt` satisfies `0 ≤ remaining_bdt ≤ 8`, so the award
loop draws at most the eight entries of the remainder list (indices 0..7)
and never indexes out of bounds. -/
theorem C10_remaining_bounds (p : Profile) (h : 0 ≤ p.total_expense) :
    0 ≤ remainingBdt p ∧ remainingBdt p ≤ 8 ∧
    (remainingBdt p).toNat ≤ (amtRemainders p).length := by
  obtain ⟨h1, h2⟩ := remainingBdt_bounds p h
  refine ⟨h1, h2, ?_⟩
  have hl := congrArg List.length (amtRemainders_snd p)
  rw [List.length_map] at hl
  have h8 : (amtRemainders p).length = 8 := by rw [hl]; rfl
  omega

/-- Witness for `C10_remaining_bounds` at the Scenario-A profile. -/
theorem C10_remaining_bounds_witness :
    0 ≤ witProfile.total_expense ∧
    (0 ≤ remainingBdt witProfile ∧ remainingBdt witProfile ≤ 8 ∧
     (remainingBdt witProfile).toNat ≤ (amtRemainders witProfile).length) :=
  ⟨by norm_num [witProfile],
   C10_remaining_bounds witProfile (by norm_num [witProfile])⟩

end CalTax

namespace CalTax

/-! ### Supporting facts: the amount sum identity and the integer case -/

theorem pyRound_intCast (n : ℤ) : pyRound (n : ℚ) = n := by
  unfold pyRound
  rw [Int.floor_intCast]
  norm_num

theorem intAmounts_sum (p : Profile) (h : 0 ≤ p.total_expense) :
    ((intAmounts p).map Prod.snd).sum
      = totalAllocated p + max 0 (remainingBdt p) := by
  unfold intAmounts
  rw [awardTop_sum tupleDesc (amtBase p) (amtRemainders p) (remainingBdt p)
    (by rw [amtRemainders_snd, amtBase_fst])
    (by rw [amtBase_fst]; exact categoryNames_nodup)
    (by
      rw [amtBase_fst]
      have h8 := (remainingBdt_bounds p h).2
      have hl : (categoryNames.length : ℤ) = 8 := rfl
      omega)]
  rfl

/-- On an integer `total_expense`, the drift fix is exact: the amounts sum
to that integer (the C2 drift appears only at half-integer totals with odd
`total_allocated`). -/
theorem amounts_sum_integer (p : Profile) (n : ℤ) (hn : 0 ≤ n)
    (ht : p.total_expense = (n : ℚ)) :
    ((intAmounts p).map Prod.snd).sum = n := by
  have h0 : 0 ≤ p.total_expense := by
    rw [ht]
    exact_mod_cast hn
  have hfr : p.total_expense - (totalAllocated p : ℚ)
      = ((n - totalAllocated p : ℤ) : ℚ) := by
    push_cast [ht]
    ring
  have hrem : remainingBdt p = n - totalAllocated p := by
    unfold remainingBdt
    rw [hfr, pyRound_intCast]
  have hnonneg : 0 ≤ n - totalAllocated p := by
    have hq : (0:ℚ) ≤ p.total_expense - (totalAllocated p : ℚ) := by
      rw [← totalAllocated_sub, amtRemainders_fst]
      exact frac_sum_nonneg _ (rawAmounts_snd_nonneg p h0)
    rw [hfr] at hq
    exact_mod_cast hq
  rw [intAmounts_sum p h0, hrem, max_eq_right hnonneg]
  omega

/-- Witness for `amounts_sum_integer` at the Scenario-A profile. -/
theorem amounts_sum_integer_witness :
    (0:ℤ) ≤ 600000 ∧ witProfile.total_expense = ((600000:ℤ) : ℚ) ∧
    ((intAmounts witProfile).map Prod.snd).sum = 600000 :=
  ⟨by norm_num, by norm_num [witProfile],
   amounts_sum_integer witProfile 600000 (by norm_num) (by norm_num [witProfile])⟩

end CalTax
